import Mathlib

/-!
Verification of the data-linking core of the pepbench-tcr pipeline.

Python strings are modelled as `List Char`; Python `str.strip`, `str.upper`,
`str.lower`, slicing, `in` (substring), `str.split`, `str.endswith` and
whitespace tokenization are given explicit executable definitions below,
each translated from the corresponding construct in the source files
`03_netmhcpan/prepare_sequences.py`, `03_netmhcpan/filter_binders.py` and
`04_rosetta_thread/prepare_threading.py`.
-/

/-- A Python string, modelled as its list of characters. -/
abbrev Str := List Char

/-- Models Python `str.strip()`: remove leading and trailing whitespace. -/
def pyStrip (s : Str) : Str :=
  ((s.dropWhile Char.isWhitespace).reverse.dropWhile Char.isWhitespace).reverse

/-- Models Python `str.upper()` (character-wise, ASCII inputs). -/
def pyUpper (s : Str) : Str := s.map Char.toUpper

/-- Models Python `str.lower()` (character-wise, ASCII inputs). -/
def pyLower (s : Str) : Str := s.map Char.toLower

/-- `leadsList pat s` is true when `pat` is an initial segment of `s`. -/
def leadsList : Str → Str → Bool
  | [], _ => true
  | _ :: _, [] => false
  | p :: ps, c :: cs => p == c && leadsList ps cs

/-- Models Python `s.endswith(pat)`. -/
def listEndsWith (pat s : Str) : Bool := leadsList pat.reverse s.reverse

/-- Models Python `pat in s` (substring containment). -/
def containsSub (pat : Str) : Str → Bool
  | [] => leadsList pat []
  | c :: rest => leadsList pat (c :: rest) || containsSub pat rest

/-- Models Python `s.split(pat, 1)[0]` for a non-empty separator `pat`:
everything before the first occurrence of `pat` (all of `s` if absent). -/
def takeUntilSub (pat : Str) : Str → Str
  | [] => []
  | c :: rest => if leadsList pat (c :: rest) then [] else c :: takeUntilSub pat rest

/-- Accumulator-based whitespace tokenizer. -/
def wsTokensAux : Str → Str → List Str
  | [], cur => if cur.isEmpty then [] else [cur.reverse]
  | c :: rest, cur =>
    if c.isWhitespace then
      if cur.isEmpty then wsTokensAux rest [] else cur.reverse :: wsTokensAux rest []
    else wsTokensAux rest (c :: cur)

/-- Models `re.split(r"\s+", s)` as used on stripped report lines in
`filter_binders.py`: split into maximal runs of non-whitespace characters. -/
def wsTokens (s : Str) : List Str := wsTokensAux s []

/-- Models Python `str(n)` for a natural number. -/
def natStr (n : Nat) : Str := (Nat.repr n).data

/-- A line is a FASTA header when it starts with the marker character,
as tested by `line.startswith(">")` in all three components. -/
def isHeaderLine (l : Str) : Bool := leadsList ">".data l

/-- Models `os.path.join(a, b)` for a directory path `a` (no trailing
separator) and a relative name `b`, the only shape used in the sources. -/
def pathJoin (a b : Str) : Str := a ++ "/".data ++ b

/-- Python `sorted` on a list of strings: a stable sort ascending by the
lexicographic order on code points, modelled by insertion sort over the
lexicographic linear order on `List Char`. -/
def pySortedStrs (l : List Str) : List Str := List.insertionSort (· ≤ ·) l

/-!
Sequence Expander: `03_netmhcpan/prepare_sequences.py`.
-/

/-- `AA_LIST = list("ACDEFGHIKLMNPQRSTVWY")` from `prepare_sequences.py`. -/
def AA_LIST : List Char := "ACDEFGHIKLMNPQRSTVWY".data

/-- The Sequence Expander's file-selection test from `prepare_sequences.py`
line 42: `fname.endswith(".fa")` (case-sensitive). -/
def prepareSelects (fname : Str) : Bool := listEndsWith ".fa".data fname

/-- The Binder Filter's indexing file-selection test from `filter_binders.py`
line 48: `f.lower().endswith(".fa")` (case-insensitive). -/
def filterSelects (fname : Str) : Bool := listEndsWith ".fa".data (pyLower fname)

/-- The 20 anchor-prefixed variants of one sequence line: `aa + line` for
each `aa` in `AA_LIST`, in order (lines 65-66 of `prepare_sequences.py`). -/
def expandOne (line : Str) : List Str := AA_LIST.map (fun a => a :: line)

/-- Loop state of the per-file loop in `prepare_sequences.py` `main`:
the two flags plus the accumulated output lines. -/
structure ExpandState where
  firstHeaderSeen : Bool
  dropNext : Bool
  allSeqs : List Str

/-- One iteration of the line loop of `prepare_sequences.py` `main`
(lines 50-66): strip, skip blanks, record the first header and arm the
drop of its sequence line, drop that one line, expand every other line. -/
def expandStep (st : ExpandState) (raw : Str) : ExpandState :=
  let line := pyStrip raw
  if line.isEmpty then st
  else if isHeaderLine line then
    if !st.firstHeaderSeen then { st with firstHeaderSeen := true, dropNext := true }
    else st
  else if st.dropNext then { st with dropNext := false }
  else { st with allSeqs := st.allSeqs ++ expandOne line }

/-- The expanded output lines contributed by one design file. -/
def expandFile (lines : List Str) : List Str :=
  (lines.foldl expandStep ⟨false, false, []⟩).allSeqs

/-- Loop state tracking which sequence lines the expander accepts. -/
structure DesignState where
  firstHeaderSeen : Bool
  dropNext : Bool
  recs : List Str

/-- Companion of `expandStep` that records the accepted (non-reference)
sequence lines themselves instead of their expansions. -/
def designStep (st : DesignState) (raw : Str) : DesignState :=
  let line := pyStrip raw
  if line.isEmpty then st
  else if isHeaderLine line then
    if !st.firstHeaderSeen then { st with firstHeaderSeen := true, dropNext := true }
    else st
  else if st.dropNext then { st with dropNext := false }
  else { st with recs := st.recs ++ [line] }

/-- The non-reference sequence lines of one design file: every stripped
non-blank non-header line except the one following the first header. -/
def designLines (lines : List Str) : List Str :=
  (lines.foldl designStep ⟨false, false, []⟩).recs

/-!
Binder Filter and Provenance Mapper: `03_netmhcpan/filter_binders.py`.
-/

/-- A design-sequence file as seen by the indexing walk in
`filter_binders.py`: the components of its full path (directories followed
by the file name, as in `Path(root) / f`) and its lines. -/
structure MpnnFile where
  parts : List Str
  lines : List Str

/-- First index of `x` in a list of strings, models `parts.index(x)`. -/
def firstIdx (x : Str) : List Str → Option Nat
  | [] => none
  | y :: ys => if y == x then some 0 else (firstIdx x ys).map (· + 1)

/-- The name of the parent directory of a path given as components:
models `path.parent.name`. -/
def parentDirName (parts : List Str) : Str := (parts.dropLast).getLastD []

/-- `get_experiment_name` from `filter_binders.py` lines 23-30: the path
component right before a component literally named `seqs` when one exists
at positive index, else the parent directory name. -/
def getExperimentName (parts : List Str) : Str :=
  match firstIdx "seqs".data parts with
  | some i => if i > 0 then parts.getD (i - 1) [] else parentDirName parts
  | none => parentDirName parts

/-- The provenance index `peptide_to_header`: a finite map modelled as a
function, `none` for absent keys; insertion overwrites (last write wins). -/
abbrev Index := Str → Option Str

/-- State of the per-file indexing loop: the map so far and the last
header seen. -/
structure IndexState where
  idx : Index
  header : Option Str

/-- One iteration of the indexing loop of `filter_binders.py` lines 56-66:
strip, skip blanks, remember headers, and map each non-empty upper-cased
sequence line seen after some header to `f"{exp_name}__{header}"`. -/
def indexFileStep (exp : Str) (st : IndexState) (raw : Str) : IndexState :=
  let line := pyStrip raw
  if line.isEmpty then st
  else if isHeaderLine line then { st with header := some (line.drop 1) }
  else
    let seq := pyUpper line
    match st.header with
    | some hdr =>
      if seq.isEmpty then st
      else { st with idx := fun k => if k = seq then some (exp ++ "__".data ++ hdr) else st.idx k }
    | none => st

/-- Index one design file into an existing index. -/
def indexFile (parts : List Str) (lines : List Str) (idx₀ : Index) : Index :=
  (lines.foldl (indexFileStep (getExperimentName parts)) ⟨idx₀, none⟩).idx

/-- The full indexing pass of `filter_binders.py` lines 46-66: walk the
design tree (files given in traversal order), keeping only files whose
lower-cased name ends in `.fa`. -/
def buildIndex (files : List MpnnFile) : Index :=
  files.foldl
    (fun idx f => if filterSelects (f.parts.getLastD []) then indexFile f.parts f.lines idx else idx)
    (fun _ => none)

/-- The literal strong-binder marker `"<= SB"`. -/
def markerSB : Str := "<= SB".data

/-- The literal weak-binder marker `"<= WB"`. -/
def markerWB : Str := "<= WB".data

/-- State of the report scan: the set of trimmed peptides (a list unique
by value, membership models Python-set membership) and the `too_short`
counter. -/
structure ScanState where
  peps : List Str
  tooShort : Nat
  deriving DecidableEq

/-- Models `set.add`: append the value when it is not already present. -/
def setAdd (x : Str) (s : List Str) : List Str := if x ∈ s then s else s ++ [x]

/-- One iteration of the report loop of `filter_binders.py` lines 76-86:
lines carrying a binder marker are stripped and whitespace-tokenized; with
at least 3 tokens, the upper-cased 3rd token is the anchor-prefixed
peptide; length below 2 counts as malformed, otherwise the first symbol
is trimmed and the remainder added to the peptide set. -/
def scanStep (st : ScanState) (line : Str) : ScanState :=
  if containsSub markerSB line || containsSub markerWB line then
    let parts := wsTokens (pyStrip line)
    if parts.length ≥ 3 then
      let pepFull := pyUpper (parts.getD 2 [])
      if pepFull.length < 2 then { st with tooShort := st.tooShort + 1 }
      else
        let pepOrig := pepFull.drop 1
        if !pepOrig.isEmpty then { st with peps := setAdd pepOrig st.peps } else st
    else st
  else st

/-- The full report scan of `filter_binders.py` lines 75-86. -/
def scanReport (lines : List Str) : ScanState := lines.foldl scanStep ⟨[], 0⟩

/-- Header resolution of `filter_binders.py` lines 97-100: the indexed
provenance header, else the synthesized `f"unmapped__{pep}"`. -/
def resolveHeader (idx : Index) (pep : Str) : Str :=
  match idx pep with
  | some h => h
  | none => "unmapped__".data ++ pep

/-- The output records of `filter_binders.py` lines 94-102, in emission
order: one (header, sequence) pair per unique trimmed peptide, iterated
in Python `sorted` order. -/
def outputRecords (idx : Index) (reportLines : List Str) : List (Str × Str) :=
  (pySortedStrs (scanReport reportLines).peps).map (fun p => (resolveHeader idx p, p))

/-- `main` of `filter_binders.py` at the granularity the claims need.
The design tree is `none` when the given root does not exist: `os.walk`
on a missing directory yields no entries, so the walk simply indexes
nothing. The report is `none` when the report file does not exist: `open`
then raises `FileNotFoundError`, which nothing catches, so the run
aborts. Otherwise the run completes and returns its output records. -/
def filterBindersMain (tree : Option (List MpnnFile)) (report : Option (List Str)) :
    Except Str (List (Str × Str)) :=
  let idx := buildIndex (tree.getD [])
  match report with
  | none => Except.error "FileNotFoundError".data
  | some lines => Except.ok (outputRecords idx lines)

/-!
Threading Command Generator: `04_rosetta_thread/prepare_threading.py`.
-/

/-- `header_to_pdb_stem` from `prepare_threading.py` lines 22-30:
`header.split(",", 1)[0]` followed by `.split("__", 1)[0]`. -/
def headerToPdbStem (header : Str) : Str :=
  takeUntilSub "__".data (takeUntilSub ",".data header)

/-- The message of the `RuntimeError` raised at line 71 of
`prepare_threading.py`. -/
def fastaFormatErrMsg : Str := "FASTA format error: sequence before header".data

/-- The output-prefix string of one threading job, from line 83 of
`prepare_threading.py`: `os.path.join(output_dir, f"threaded_{local_idx}_")`.
It is a function of the output directory and of the stem-local 1-based
index only. -/
def mkOutPre (outputDir : Str) (localIdx : Nat) : Str :=
  pathJoin outputDir ("threaded_".data ++ natStr localIdx ++ "_".data)

/-- One job line, from lines 85-90 of `prepare_threading.py`. -/
def mkThreadCmd (pdbPath seq outPre : Str) : Str :=
  "rosetta_scripts -in:file:s ".data ++ pdbPath
    ++ " -parser:protocol thread.xml -parser:script_vars sequence=".data ++ seq
    ++ " -out:prefix ".data ++ outPre

/-- Loop state of `main` in `prepare_threading.py`: the current header,
the `per_pdb_count` default-zero counter map, the job counter, the
missing-stem list and the command list. -/
structure ThreadState where
  header : Option Str
  counts : Str → Nat
  nCommands : Nat
  missing : List Str
  commands : List Str

/-- One iteration of the line loop of `prepare_threading.py` lines 60-92.
`pdbSet` is the set of stems `s` for which `os.path.isfile` holds of
`os.path.join(pdb_dir, s + ".pdb")`. A sequence line with no header seen
raises, which aborts the run. -/
def threadStep (pdbSet : List Str) (outputDir pdbDir : Str) (st : ThreadState) (raw : Str) :
    Except Str ThreadState :=
  let line := pyStrip raw
  if line.isEmpty then .ok st
  else if isHeaderLine line then .ok { st with header := some (line.drop 1) }
  else
    match st.header with
    | none => .error fastaFormatErrMsg
    | some hdr =>
      let stem := headerToPdbStem hdr
      if stem ∈ pdbSet then
        .ok { st with
          counts := fun k => if k = stem then st.counts stem + 1 else st.counts k,
          nCommands := st.nCommands + 1,
          commands := st.commands
            ++ [mkThreadCmd (pathJoin pdbDir (stem ++ ".pdb".data)) line
                  (mkOutPre outputDir (st.counts stem + 1))] }
      else .ok { st with missing := st.missing ++ [stem] }

/-- The line loop of `prepare_threading.py`, propagating the abort. -/
def threadFold (pdbSet : List Str) (outputDir pdbDir : Str) :
    ThreadState → List Str → Except Str ThreadState
  | st, [] => .ok st
  | st, l :: ls =>
    match threadStep pdbSet outputDir pdbDir st l with
    | .error e => .error e
    | .ok st' => threadFold pdbSet outputDir pdbDir st' ls

/-- The deduplicated, sorted, first-10 preview of missing stems printed at
lines 103-106 of `prepare_threading.py`: `sorted(set(missing))[:10]`. -/
def missingPreview (missing : List Str) : List Str :=
  (pySortedStrs missing.dedup).take 10

/-- `main` of `prepare_threading.py` after its input checks (the filtered
FASTA content is given as `lines`): either the fatal format error, or the
emitted command list together with the missing-stem preview of the final
report. -/
def threadMain (pdbSet : List Str) (outputDir pdbDir : Str) (lines : List Str) :
    Except Str (List Str × List Str) :=
  match threadFold pdbSet outputDir pdbDir ⟨none, fun _ => 0, 0, [], []⟩ lines with
  | .error e => .error e
  | .ok st => .ok (st.commands, missingPreview st.missing)

/-- The first non-blank line (after stripping) of an input, if any. -/
def firstNonBlank (lines : List Str) : Option Str :=
  match lines with
  | [] => none
  | l :: ls => if (pyStrip l).isEmpty then firstNonBlank ls else some (pyStrip l)

/-- The anchor-trimming step `pep_full[1:]` of `filter_binders.py`
line 84: drop the first symbol. -/
def trimAnchor (s : Str) : Str := s.drop 1

/-!
Helper lemmas.
-/

theorem leadsList_map_of_leadsList (f : Char → Char) :
    ∀ p s : Str, leadsList p s = true → leadsList (p.map f) (s.map f) = true := by
  intro p
  induction p with
  | nil => intro s _; rfl
  | cons a as ih =>
    intro s h
    cases s with
    | nil => simp [leadsList] at h
    | cons b bs =>
      simp only [leadsList, Bool.and_eq_true, beq_iff_eq] at h
      simp only [List.map_cons, leadsList, Bool.and_eq_true, beq_iff_eq]
      exact ⟨by rw [h.1], ih bs h.2⟩

theorem listEndsWith_lower_of_listEndsWith (pat s : Str)
    (hpat : pat.map Char.toLower = pat) (h : listEndsWith pat s = true) :
    listEndsWith pat (pyLower s) = true := by
  have h2 := leadsList_map_of_leadsList Char.toLower pat.reverse s.reverse h
  have e1 : pat.reverse.map Char.toLower = pat.reverse := by rw [List.map_reverse, hpat]
  have e2 : s.reverse.map Char.toLower = (pyLower s).reverse := by
    simp [pyLower, List.map_reverse]
  rw [e1, e2] at h2
  exact h2

/-!
Claim theorems.
-/

/-- C2 (counterexample): applied to the literal provenance header
`exp1__design1, T=0.1, sample=20`, the stem derivation of the Threading
Command Generator does not yield `exp1__design1` as the claim states. -/
theorem headerToPdbStem_example_not_full :
    headerToPdbStem "exp1__design1, T=0.1, sample=20".data ≠ "exp1__design1".data := by
  decide

/-- C2 (amended): the stem derivation truncates before the first `,` and
then before the first `__`, so the header `exp1__design1, T=0.1, sample=20`
yields the structural stem `exp1`. -/
theorem headerToPdbStem_example_literal :
    headerToPdbStem "exp1__design1, T=0.1, sample=20".data = "exp1".data := by
  decide

/-- C5: for every original peptide `P` and every anchor `A` among the 20
canonical amino-acid symbols, trimming the first symbol of the
concatenation `A + P` — exactly what `filter_binders.py` does with
`pep_full[1:]` — recovers `P`. -/
theorem anchor_trim_round_trip (P : Str) (A : Char) (hA : A ∈ AA_LIST) :
    trimAnchor (A :: P) = P := by
  simp [trimAnchor]

/-- Witness for `anchor_trim_round_trip` at the anchor `A` and the
peptide `ACDEFGH`. -/
theorem anchor_trim_round_trip_witness :
    trimAnchor (Char.ofNat 65 :: "ACDEFGH".data) = "ACDEFGH".data :=
  anchor_trim_round_trip "ACDEFGH".data (Char.ofNat 65) (by decide)

/-- C4 (counterexample): the file name `x.FA` has the design extension up
to letter case (its lower-casing ends in `.fa`), yet the Sequence
Expander's selection test rejects it. -/
theorem expander_selection_case_counterexample :
    listEndsWith ".fa".data (pyLower "x.FA".data) = true ∧
    prepareSelects "x.FA".data = false := by
  decide

/-- C4 (amended): the Sequence Expander's file discovery is
case-sensitive — it selects exactly the files whose name ends in the
literal `.fa`, so every file it selects is also selected by the Binder
Filter's case-insensitive test, but not conversely: `x.FA` is rejected by
the Sequence Expander while the Binder Filter indexing accepts it. -/
theorem expander_selection_case_sensitive :
    (∀ fname : Str, prepareSelects fname = true → filterSelects fname = true) ∧
    prepareSelects "x.fa".data = true ∧
    prepareSelects "x.FA".data = false ∧
    filterSelects "x.FA".data = true := by
  refine ⟨fun fname h => ?_, by decide, by decide, by decide⟩
  exact listEndsWith_lower_of_listEndsWith ".fa".data fname (by decide) h

/-- Witness for `expander_selection_case_sensitive`: its universally
quantified part applied at the concrete file name `x.fa`. -/
theorem expander_selection_case_sensitive_witness :
    filterSelects "x.fa".data = true :=
  expander_selection_case_sensitive.1 "x.fa".data (by decide)

/-- C3 (counterexample): with a missing design-tree root (`os.walk` over a
non-existent directory yields nothing) and an existing report containing
one qualifying row, the Binder Filter run completes and writes an output
record instead of aborting. -/
theorem filterBinders_missing_tree_completes :
    filterBindersMain none (some ["PEP1 HLA-A*02:01 AAACDEFGH 0.123 0.456 <= SB".data])
      = Except.ok [("unmapped__AACDEFGH".data, "AACDEFGH".data)] := by
  rfl

/-- C3 (amended): a missing report file is fatal — the uncaught
`FileNotFoundError` from `open` aborts every such run — but a missing
design-tree root is not: `os.walk` silently yields no files, and the run
completes with its printed summary whatever the report content is. -/
theorem filterBinders_missing_inputs_fatality :
    (∀ tree : Option (List MpnnFile),
      filterBindersMain tree none = Except.error "FileNotFoundError".data) ∧
    (∀ report : List Str, (filterBindersMain none (some report)).isOk = true) := by
  constructor
  · intro tree; rfl
  · intro report; rfl

/-- C1 (counterexample): a run over two records with distinct structural
stems `a1` and `b2`, both resolvable, emits two job lines whose
output-prefix strings are both the identical `mkOutPre "out" 1`; the
prefix therefore does not encode the stem. -/
theorem threading_outPre_stem_counterexample :
    threadMain ["a1".data, "b2".data] "out".data "pdbs".data
        [">a1, T=0.1".data, "ACDE".data, ">b2, T=0.2".data, "FGHI".data]
      = Except.ok
          ([mkThreadCmd "pdbs/a1.pdb".data "ACDE".data (mkOutPre "out".data 1),
            mkThreadCmd "pdbs/b2.pdb".data "FGHI".data (mkOutPre "out".data 1)], []) ∧
    headerToPdbStem "a1, T=0.1".data ≠ headerToPdbStem "b2, T=0.2".data := by
  exact ⟨by rfl, by decide⟩

/-- C1 (amended): the output-prefix written into each emitted job line is
`mkOutPre outputDir (count + 1)` — a function of the fixed output
directory and of the 1-based stem-local counter only; the structural stem
does not enter the prefix (it enters the job line only through the
structural input path). -/
theorem threading_outPre_encodes_index_only (pdbSet : List Str) (outputDir pdbDir : Str)
    (st : ThreadState) (raw hdr : Str)
    (h1 : (pyStrip raw).isEmpty = false)
    (h2 : isHeaderLine (pyStrip raw) = false)
    (h3 : st.header = some hdr)
    (h4 : headerToPdbStem hdr ∈ pdbSet) :
    threadStep pdbSet outputDir pdbDir st raw = Except.ok { st with
      counts := fun k => if k = headerToPdbStem hdr
        then st.counts (headerToPdbStem hdr) + 1 else st.counts k,
      nCommands := st.nCommands + 1,
      commands := st.commands
        ++ [mkThreadCmd (pathJoin pdbDir (headerToPdbStem hdr ++ ".pdb".data)) (pyStrip raw)
              (mkOutPre outputDir (st.counts (headerToPdbStem hdr) + 1))] } := by
  simp [threadStep, h1, h2, h3, h4]

/-- Witness for `threading_outPre_encodes_index_only` at a concrete state
and record. -/
theorem threading_outPre_encodes_index_only_witness :
    threadStep ["a1".data] "out".data "pdbs".data
        ⟨some "a1, T=0.1".data, fun _ => 0, 0, [], []⟩ "ACDE".data
      = Except.ok ⟨some "a1, T=0.1".data,
          fun k => if k = "a1".data then 1 else 0, 1, [],
          [mkThreadCmd "pdbs/a1.pdb".data "ACDE".data (mkOutPre "out".data 1)]⟩ :=
  threading_outPre_encodes_index_only ["a1".data] "out".data "pdbs".data
    ⟨some "a1, T=0.1".data, fun _ => 0, 0, [], []⟩ "ACDE".data "a1, T=0.1".data
    (by decide) (by decide) rfl (by decide)

theorem setAdd_nodup {x : Str} {s : List Str} (h : s.Nodup) : (setAdd x s).Nodup := by
  unfold setAdd
  split_ifs with hx
  · exact h
  · simp [List.nodup_append, h, hx]

theorem scanStep_peps_nodup (st : ScanState) (line : Str) (h : st.peps.Nodup) :
    (scanStep st line).peps.Nodup := by
  unfold scanStep
  dsimp only
  split
  · split
    · split
      · exact h
      · split
        · exact setAdd_nodup h
        · exact h
    · exact h
  · exact h

theorem scanFold_peps_nodup (lines : List Str) :
    ∀ st : ScanState, st.peps.Nodup → ((lines.foldl scanStep st).peps).Nodup := by
  induction lines with
  | nil => intro st h; exact h
  | cons l ls ih => intro st h; exact ih _ (scanStep_peps_nodup st l h)

theorem scanReport_peps_nodup (lines : List Str) : (scanReport lines).peps.Nodup :=
  scanFold_peps_nodup lines ⟨[], 0⟩ List.nodup_nil

theorem pySortedStrs_sorted_le (l : List Str) : (pySortedStrs l).Sorted (· ≤ ·) :=
  List.sorted_insertionSort _ l

theorem pySortedStrs_nodup {l : List Str} (h : l.Nodup) : (pySortedStrs l).Nodup :=
  ((List.perm_insertionSort _ l).nodup_iff).mpr h

/-- C6: the sequence lines of the Binder Filter's output records are in
strictly ascending lexicographic order, for every report input and every
design tree; in particular no two output records share a sequence line,
whatever duplicate qualifying rows the report contains. -/
theorem filter_output_sorted_nodup (files : List MpnnFile) (reportLines : List Str) :
    List.Sorted (· < ·) ((outputRecords (buildIndex files) reportLines).map Prod.snd) ∧
    ((outputRecords (buildIndex files) reportLines).map Prod.snd).Nodup := by
  have hmap : (outputRecords (buildIndex files) reportLines).map Prod.snd
      = pySortedStrs (scanReport reportLines).peps := by
    unfold outputRecords
    rw [List.map_map]
    exact List.map_id _
  have hnd : (pySortedStrs (scanReport reportLines).peps).Nodup :=
    pySortedStrs_nodup (scanReport_peps_nodup reportLines)
  have hs : (pySortedStrs (scanReport reportLines).peps).Sorted (· ≤ ·) :=
    pySortedStrs_sorted_le _
  rw [hmap]
  exact ⟨hs.lt_of_le hnd, hnd⟩

theorem expand_design_aux (lines : List Str) :
    ∀ (fh dn : Bool) (accD : List Str),
      (lines.foldl expandStep ⟨fh, dn, accD.flatMap expandOne⟩).allSeqs
        = ((lines.foldl designStep ⟨fh, dn, accD⟩).recs).flatMap expandOne := by
  induction lines with
  | nil => intro fh dn accD; rfl
  | cons l ls ih =>
    intro fh dn accD
    simp only [List.foldl_cons]
    unfold expandStep designStep
    dsimp only
    split_ifs with hempty hhdr hfh hdn
    · exact ih fh dn accD
    · exact ih true true accD
    · exact ih fh dn accD
    · exact ih fh false accD
    · have hstep : accD.flatMap expandOne ++ expandOne (pyStrip l)
          = (accD ++ [pyStrip l]).flatMap expandOne := by
        simp [List.flatMap_append]
      rw [hstep]
      exact ih fh dn (accD ++ [pyStrip l])

theorem flatMap_expandOne_length (ds : List Str) :
    (ds.flatMap expandOne).length = 20 * ds.length := by
  induction ds with
  | nil => rfl
  | cons d ds ih =>
    have h20 : (expandOne d).length = 20 := by simp [expandOne]; rfl
    simp only [List.flatMap_cons, List.length_append, List.length_cons, h20, ih]
    omega

/-- C7: for every design file, the expanded output is exactly the
flattening, in input order, of the 20 anchor-prefixed variants (anchors of
`AA_LIST` in fixed order, literally prepended with no case normalization)
of each non-reference sequence line, so the expanded-line count is 20
times the non-reference record count. -/
theorem expander_twenty_per_record (lines : List Str) :
    expandFile lines
        = (designLines lines).flatMap (fun l => AA_LIST.map (fun a => a :: l)) ∧
    (expandFile lines).length = 20 * (designLines lines).length := by
  have h : expandFile lines = (designLines lines).flatMap expandOne :=
    expand_design_aux lines false false []
  refine ⟨h, ?_⟩
  rw [h, flatMap_expandOne_length]

theorem threadFold_noheader_error (lines : List Str) :
    ∀ (pdbSet : List Str) (outputDir pdbDir : Str) (st : ThreadState) (l : Str),
      st.header = none → firstNonBlank lines = some l → isHeaderLine l = false →
      threadFold pdbSet outputDir pdbDir st lines = Except.error fastaFormatErrMsg := by
  induction lines with
  | nil => intro _ _ _ _ _ _ hfnb _; simp [firstNonBlank] at hfnb
  | cons r ls ih =>
    intro pdbSet od pd st l hhdr hfnb hnh
    by_cases hempty : (pyStrip r).isEmpty = true
    · have hfnb' : firstNonBlank ls = some l := by
        simpa [firstNonBlank, hempty] using hfnb
      have hstep : threadStep pdbSet od pd st r = Except.ok st := by
        simp [threadStep, hempty]
      simp only [threadFold, hstep]
      exact ih pdbSet od pd st l hhdr hfnb' hnh
    · have hl : pyStrip r = l := by
        simpa [firstNonBlank, hempty] using hfnb
      have hlne : ¬ l = [] := fun he => hempty (by rw [hl, he]; rfl)
      have hstep : threadStep pdbSet od pd st r = Except.error fastaFormatErrMsg := by
        simp [threadStep, hl, hlne, hnh, hhdr]
      simp only [threadFold, hstep]

/-- C8: whenever the filtered input contains a sequence line before any
header line — its first non-blank line is not a header — the Threading
Command Generator aborts with the fatal FASTA format error, for every
such input and every structural directory. -/
theorem threading_seq_before_header_fatal (pdbSet : List Str) (outputDir pdbDir : Str)
    (lines : List Str) (l : Str)
    (h1 : firstNonBlank lines = some l) (h2 : isHeaderLine l = false) :
    threadMain pdbSet outputDir pdbDir lines = Except.error fastaFormatErrMsg := by
  unfold threadMain
  rw [threadFold_noheader_error lines pdbSet outputDir pdbDir _ l rfl h1 h2]

/-- Witness for `threading_seq_before_header_fatal`: a one-line input
whose only line is a bare sequence. -/
theorem threading_seq_before_header_fatal_witness :
    threadMain [] [] [] ["ACDE".data] = Except.error fastaFormatErrMsg :=
  threading_seq_before_header_fatal [] [] [] ["ACDE".data] "ACDE".data
    (by decide) (by decide)

theorem missingPreview_facts (ms : List Str) :
    (missingPreview ms).length ≤ 10 ∧ List.Sorted (· < ·) (missingPreview ms) ∧
    (missingPreview ms).Nodup := by
  have hnd : (pySortedStrs ms.dedup).Nodup := pySortedStrs_nodup (List.nodup_dedup ms)
  have hs : (pySortedStrs ms.dedup).Sorted (· < ·) :=
    (pySortedStrs_sorted_le ms.dedup).lt_of_le hnd
  exact ⟨List.length_take_le 10 _, hs.sublist (List.take_sublist 10 _),
    hnd.sublist (List.take_sublist 10 _)⟩

/-- C9: a record whose derived stem has no matching structural file
produces no job line — the step only appends the stem to the missing list,
leaving commands and counters untouched, and does not abort — and the
final report's preview of missing stems is deduplicated (nodup), sorted
strictly ascending, and at most 10 entries long, for every missing list. -/
theorem threading_missing_stem_skipped (pdbSet : List Str) (outputDir pdbDir : Str)
    (st : ThreadState) (raw hdr : Str) (ms : List Str)
    (h1 : (pyStrip raw).isEmpty = false)
    (h2 : isHeaderLine (pyStrip raw) = false)
    (h3 : st.header = some hdr)
    (h4 : headerToPdbStem hdr ∉ pdbSet) :
    threadStep pdbSet outputDir pdbDir st raw
        = Except.ok { st with missing := st.missing ++ [headerToPdbStem hdr] } ∧
    (missingPreview ms).length ≤ 10 ∧
    List.Sorted (· < ·) (missingPreview ms) ∧ (missingPreview ms).Nodup := by
  refine ⟨?_, missingPreview_facts ms⟩
  simp [threadStep, h1, h2, h3, h4]

/-- Witness for `threading_missing_stem_skipped`: a record whose stem `zz`
matches nothing, with a concrete duplicated missing list. -/
theorem threading_missing_stem_skipped_witness :
    threadStep [] "out".data "pdbs".data
        ⟨some "zz".data, fun _ => 0, 0, [], []⟩ "ACDE".data
        = Except.ok ⟨some "zz".data, fun _ => 0, 0, ["zz".data], []⟩ ∧
    (missingPreview ["b".data, "a".data, "b".data]).length ≤ 10 ∧
    List.Sorted (· < ·) (missingPreview ["b".data, "a".data, "b".data]) ∧
    (missingPreview ["b".data, "a".data, "b".data]).Nodup :=
  threading_missing_stem_skipped [] "out".data "pdbs".data
    ⟨some "zz".data, fun _ => 0, 0, [], []⟩ "ACDE".data "zz".data
    ["b".data, "a".data, "b".data] (by decide) (by decide) rfl (by decide)

/-- C10: a report line that carries a binder marker but splits into fewer
than 3 whitespace tokens leaves the scan state unchanged — no peptide is
added and the malformed counter stays — and the malformed counter moves
only on lines whose upper-cased 3rd token has fewer than 2 symbols. -/
theorem scan_marker_short_line_dropped (st st₂ : ScanState) (line line₂ : Str)
    (hm : (containsSub markerSB line || containsSub markerWB line) = true)
    (hlen : (wsTokens (pyStrip line)).length < 3)
    (hinc : (scanStep st₂ line₂).tooShort ≠ st₂.tooShort) :
    scanStep st line = st ∧
    (pyUpper ((wsTokens (pyStrip line₂)).getD 2 [])).length < 2 := by
  constructor
  · simp [scanStep, hm, Nat.not_le.mpr hlen]
  · unfold scanStep at hinc
    dsimp only at hinc
    split_ifs at hinc with hm2 hlen2 hshort hne
    · exact hshort
    all_goals simp_all

/-- Witness for `scan_marker_short_line_dropped`: the bare marker line
`<= SB` (2 tokens) for the dropped part, and a marker line whose peptide
token is the single symbol `A` for the malformed part. -/
theorem scan_marker_short_line_dropped_witness :
    scanStep ⟨[], 0⟩ "<= SB".data = ⟨[], 0⟩ ∧
    (pyUpper ((wsTokens (pyStrip "p h A x y <= SB".data)).getD 2 [])).length < 2 :=
  scan_marker_short_line_dropped ⟨[], 0⟩ ⟨[], 0⟩ "<= SB".data "p h A x y <= SB".data
    (by decide) (by decide) (by decide)
